import Mathlib

/-!
Shallow embedding of `ytui` (src/src/main.rs): a two-mode terminal UI with an
input buffer, an exit flag and a render loop.  Pure functions of the Rust
source are translated to Lean functions; the event loop becomes explicit
state passing over a finite event list.  `u16` arithmetic is modelled with
`Nat` plus explicit `% 65536` where a cast truncates, and the unchecked
`u16` subtraction in the inner-width computation is modelled with `Option`
(`none` = underflow panic).

The crate `tui_input` (the `Input` buffer) and the module `tui`
(terminal init/restore) are not part of `src/`; where a claim depends on
them they are modelled from the spec, and each such definition says so in
its doc comment.
-/

/-- Key codes, from `crossterm::event::KeyCode` (only the variants the
program and the input-buffer operations of the spec distinguish; every other
variant is collapsed into `other`). -/
inductive KeyCode where
  | char (c : Char)
  | enter
  | esc
  | backspace
  | delete
  | left
  | right
  | home
  | endKey
  | other
  deriving DecidableEq, Repr

/-- `crossterm::event::KeyEventKind`. -/
inductive KeyEventKind where
  | press
  | release
  | repeat
  deriving DecidableEq, Repr

/-- `crossterm::event::KeyEvent`: the program only ever reads the `code`
and `kind` fields, so only those are modelled. -/
structure KeyEvent where
  code : KeyCode
  kind : KeyEventKind
  deriving DecidableEq, Repr

/-- `crossterm::event::Event`: the variants of the crossterm event enum.
`mouse`, `paste` and the payload of `resize` carry no data the program
reads, so their payloads are elided. -/
inductive Event where
  | key (keyEvent : KeyEvent)
  | resize (w h : Nat)
  | focusGained
  | focusLost
  | mouse
  | paste (s : String)
  deriving DecidableEq, Repr

/-- `enum InputMode { Editing, Normal }` from main.rs. -/
inductive InputMode where
  | editing
  | normal
  deriving DecidableEq, Repr

/-- Modelled from the spec: the `tui_input::Input` buffer, whose source is
not in this repository.  Spec §4.4: "a single-line editable string with a
cursor"; cursor index in `0..=len`. -/
structure Input where
  value : List Char
  cursor : Nat
  deriving DecidableEq, Repr

/-- Modelled from the spec: the key handling of `tui_input`
(`Input::handle_event` on a key event), whose source is not in this
repository.  Spec §4.4 operations: insert printable character at cursor and
advance cursor; backspace deletes before the cursor if cursor > 0; delete
removes at cursor if cursor < len; Left/Right move the cursor within
[0, len]; Home/End move it to 0 / len.  Any other key leaves the buffer
unchanged. -/
def Input.handleKey (i : Input) (code : KeyCode) : Input :=
  match code with
  | KeyCode.char c =>
      { value := i.value.take i.cursor ++ [c] ++ i.value.drop i.cursor,
        cursor := i.cursor + 1 }
  | KeyCode.backspace =>
      if 0 < i.cursor then
        { value := i.value.take (i.cursor - 1) ++ i.value.drop i.cursor,
          cursor := i.cursor - 1 }
      else i
  | KeyCode.delete =>
      if i.cursor < i.value.length then
        { value := i.value.take i.cursor ++ i.value.drop (i.cursor + 1),
          cursor := i.cursor }
      else i
  | KeyCode.left => { i with cursor := i.cursor - 1 }
  | KeyCode.right => { i with cursor := min (i.cursor + 1) i.value.length }
  | KeyCode.home => { i with cursor := 0 }
  | KeyCode.endKey => { i with cursor := i.value.length }
  | _ => i

/-- `struct App` from main.rs. -/
structure App where
  input_mode : InputMode
  exit : Bool
  input : Input
  search_items : List String
  selected_item : String
  deriving DecidableEq, Repr

/-- `impl Default for App` / the literal built in `main`: mode Normal,
exit false, empty input, empty results, empty selection. -/
def App.default : App :=
  { input_mode := InputMode.normal,
    exit := false,
    input := { value := [], cursor := 0 },
    search_items := [],
    selected_item := "" }

/-- `App::handle_key_event` from main.rs, translated clause by clause. -/
def App.handle_key_event (app : App) (key_event : KeyEvent) : App :=
  match app.input_mode with
  | InputMode.editing =>
      match key_event.code with
      | KeyCode.enter => { app with input_mode := InputMode.normal }
      | KeyCode.esc => { app with input_mode := InputMode.normal }
      | _ => { app with input := app.input.handleKey key_event.code }
  | InputMode.normal =>
      match key_event.code with
      | KeyCode.char c =>
          if c = 'q' then { app with exit := true }
          else if c = 's' then { app with input_mode := InputMode.editing }
          else app
      | KeyCode.esc => { app with exit := true }
      | _ => app

/-- `App::handle_events` from main.rs, given the event that
`event::read()` returned: only key events whose kind is `Press` are
dispatched; everything else falls to the wildcard arm. -/
def App.handle_events (app : App) (ev : Event) : App :=
  match ev with
  | Event.key key_event =>
      if key_event.kind = KeyEventKind.press then app.handle_key_event key_event
      else app
  | _ => app

/-- Folding `handle_events` over a finite list of events. -/
def App.processEvents (app : App) (evs : List Event) : App :=
  match evs with
  | [] => app
  | e :: rest => (app.handle_events e).processEvents rest

/-- `App::run` from main.rs over a finite list of events: at each loop
iteration, if `exit` is still false the current state is rendered
(recorded in the trace) and the next event is handled; an empty event list
models a blocked `event::read`.  Returns the trace of rendered states and
the final state. -/
def App.runTrace (app : App) (evs : List Event) : List App × App :=
  if app.exit then ([], app)
  else
    match evs with
    | [] => ([app], app)
    | e :: rest =>
        let stepped := app.handle_events e
        let tail := stepped.runTrace rest
        (app :: tail.1, tail.2)

/-- A key-press event for a character key. -/
def pressChar (c : Char) : Event :=
  Event.key { code := KeyCode.char c, kind := KeyEventKind.press }

/-- A key-press event for a non-character key code. -/
def pressKey (code : KeyCode) : Event :=
  Event.key { code := code, kind := KeyEventKind.press }

/-- `ratatui::layout::Rect` (fields are `u16` in the source; a well-formed
terminal rect satisfies `x + width ≤ 65536` and `y + height ≤ 65536`). -/
structure Rect where
  x : Nat
  y : Nat
  width : Nat
  height : Nat
  deriving DecidableEq, Repr

/-- The four regions of the vertical layout in `render_frame`. -/
structure LayoutRects where
  title : Rect
  input_box : Rect
  content : Rect
  help : Rect
  deriving DecidableEq, Repr

/-- Modelled from the spec: the vertical `Layout` of `ratatui` with constraints
`[Length 1, Length 3, Fill 1, Length 1]`, whose source is not in this
repository.  Spec §4.5 and §3: "four rectangles: title, input_box, content,
help, stacked vertically with heights 1, 3, fill, 1", recomputed from the
frame size; heights are clipped to the remaining frame height when the
frame is too short. -/
def layoutVertical (frame : Rect) : LayoutRects :=
  let h1 := min 1 frame.height
  let h2 := min 3 (frame.height - h1)
  let h4 := min 1 (frame.height - h1 - h2)
  let h3 := frame.height - h1 - h2 - h4
  { title := { x := frame.x, y := frame.y, width := frame.width, height := h1 },
    input_box :=
      { x := frame.x, y := frame.y + h1, width := frame.width, height := h2 },
    content :=
      { x := frame.x, y := frame.y + h1 + h2, width := frame.width, height := h3 },
    help :=
      { x := frame.x, y := frame.y + h1 + h2 + h3, width := frame.width,
        height := h4 } }

/-- Checked subtraction: `none` models the overflow panic of an
out-of-range unsigned subtraction in Rust. -/
def checkedSub (a b : Nat) : Option Nat :=
  if b ≤ a then some (a - b) else none

/-- The inner-width computation of `render_frame`, line
`let width = input_box.width.max(3) - 3 - 2;` on `u16`: both subtractions
are unchecked and underflow panics. -/
def innerWidth (boxWidth : Nat) : Option Nat :=
  (checkedSub (max boxWidth 3) 3).bind fun t => checkedSub t 2

/-- Modelled from the spec: `Input::visual_scroll` of `tui_input`, whose
source is not in this repository.  Spec §4.4: "given inner width `w`, pick
the smallest `scroll ≥ 0` such that `cursor − scroll < w`; equivalently
`scroll = max(0, cursor − w + 1)`" (over `Nat`, `cursor + 1 - w`). -/
def visualScroll (cursor w : Nat) : Nat :=
  cursor + 1 - w

/-- Modelled from the spec: the substring of the input value visible in
the input box (spec §4.4: "The rendered substring is `value[scroll..]`
clipped to `w`"); the actual clipping is done by the `Paragraph` of `ratatui`
with the `scroll` offset, whose source is not in this repository. -/
def visibleValue (value : List Char) (scroll w : Nat) : List Char :=
  (value.drop scroll).take w

/-- One widget rendered with only a `Title` (the title block and the help
block of `render_frame`): its text, whether the title is centered, and
whether the block has any borders (`Block::default()` has none). -/
structure TitleOnlyBlock where
  text : String
  centered : Bool
  hasBorders : Bool
  deriving DecidableEq, Repr

/-- The observable output of `App::render_frame` for one frame: the
four layout regions, the widgets handed to `frame.render_widget`, and the
cursor position set by `frame.set_cursor` (`none` = cursor left hidden). -/
structure RenderOutput where
  layout : LayoutRects
  titleBlock : TitleOnlyBlock
  inputValue : List Char
  inputScroll : Nat
  inputStyleYellow : Bool
  inputBoxBordered : Bool
  inputBoxTitle : String
  cursorPos : Option (Nat × Nat)
  helpBlock : TitleOnlyBlock
  listItems : List String
  listTitle : String
  deriving DecidableEq, Repr

/-- `App::render_frame` from main.rs, as a function from the application
state and the frame area to the rendered output; `none` models the panic
of the underflowing inner-width subtraction when the input box is
narrower than 5 columns.  `u16` casts and additions are taken `% 65536`.
`self.input.visual_cursor()` is the cursor index (modelled from the spec:
cursor index "in grapheme/char units consistent with display width"). -/
def App.render_frame (app : App) (frame : Rect) : Option RenderOutput :=
  let rects := layoutVertical frame
  (innerWidth rects.input_box.width).map fun width =>
    let scroll := visualScroll app.input.cursor width
    { layout := rects,
      titleBlock :=
        { text := " ytui - youtube search in the terminal", centered := true,
          hasBorders := false },
      inputValue := app.input.value,
      inputScroll := scroll,
      inputStyleYellow := app.input_mode = InputMode.editing,
      inputBoxBordered := true,
      inputBoxTitle := " Search ",
      cursorPos :=
        match app.input_mode with
        | InputMode.normal => none
        | InputMode.editing =>
            some
              ((rects.input_box.x + (max app.input.cursor scroll - scroll) % 65536
                  + 1 + 1) % 65536,
                (rects.input_box.y + 1) % 65536),
      helpBlock :=
        { text := "h - move left, j - move down, k - move up, l - move right , s - enter search mode, esc - exit search mode",
          centered := true, hasBorders := false },
      listItems := app.search_items,
      listTitle := " Youtube videos " }

/-- The three ways `App::run` can give control back to `main`: returning
`Ok(())`, returning an I/O error, or unwinding with a panic. -/
inductive RunOutcome where
  | ok
  | ioErr
  | panicked
  deriving DecidableEq, Repr

/-- The terminal-affecting effects `main` can perform.  `initTerm` and
`restoreTerm` stand for `tui::init()` and `tui::restore()`; modelled from
the spec (their source, `mod tui`, is not in `src/`): §4.1 `init` enters
the alternate screen and raw mode, `restore` leaves them; neither
installs a panic hook or unwind guard. -/
inductive TermEffect where
  | initTerm
  | restoreTerm
  | showCursorEff
  deriving DecidableEq, Repr

/-- Rust unwinding: when a statement panicks, the statements after it in
the function body do not execute; `main` contains no `catch_unwind`, drop
guard or panic hook, so the unwind propagates out of `main`. -/
def afterRun (outcome : RunOutcome) (rest : List TermEffect) : List TermEffect :=
  match outcome with
  | RunOutcome.panicked => []
  | _ => rest

/-- `fn main` from main.rs, as the sequence of terminal effects it
performs when `tui::init()` succeeds and `App::run` ends with the given
outcome: the `io::Result` of `run` is bound to `app_result` (not propagated
early), then `tui::restore()?` and `terminal.show_cursor()?` run in
order. -/
def mainEffects (outcome : RunOutcome) : List TermEffect :=
  TermEffect.initTerm ::
    afterRun outcome [TermEffect.restoreTerm, TermEffect.showCursorEff]


/-- The state reached from the initial state by pressing `s` and then
typing the 20 characters of the spec scenario (spec §8, scenario 4). -/
def typedApp : App :=
  App.default.processEvents
    (pressChar 's' :: ("abcdefghijklmnopqrst".toList.map pressChar))

/-- An Editing-mode state whose buffer holds `hi` with the cursor at the
end (spec §8, scenario 5). -/
def editingHi : App :=
  { App.default with
      input_mode := InputMode.editing,
      input := { value := ['h', 'i'], cursor := 2 } }

/-- A frame whose input box has inner width 10
(`innerWidth 15 = some 10`), as in spec §8, scenario 4. -/
def frame15 : Rect := { x := 0, y := 0, width := 15, height := 24 }

/-- The concrete render output for `typedApp` on `frame15`. -/
def out15 : RenderOutput :=
  (App.render_frame typedApp frame15).get (by decide)

/-- Frame lemma: one call of the key handler never touches the result
list or the selected item. -/
theorem handle_key_event_frame (app : App) (ke : KeyEvent) :
    (app.handle_key_event ke).search_items = app.search_items ∧
    (app.handle_key_event ke).selected_item = app.selected_item := by
  rcases ke with ⟨code, kind⟩
  cases h : app.input_mode <;> cases code <;>
    simp only [App.handle_key_event, h] <;> (try split) <;> (try split) <;>
    constructor <;> trivial

/-- Frame lemma: one call of the event dispatcher never touches the
result list or the selected item. -/
theorem handle_events_frame (app : App) (ev : Event) :
    (app.handle_events ev).search_items = app.search_items ∧
    (app.handle_events ev).selected_item = app.selected_item := by
  cases ev <;> simp only [App.handle_events]
  case key ke =>
    split
    · exact handle_key_event_frame app ke
    · exact ⟨rfl, rfl⟩
  all_goals constructor <;> trivial

/-- Frame lemma: processing any event list never touches the result list
or the selected item. -/
theorem processEvents_frame (app : App) (evs : List Event) :
    (app.processEvents evs).search_items = app.search_items ∧
    (app.processEvents evs).selected_item = app.selected_item := by
  induction evs generalizing app with
  | nil => exact ⟨rfl, rfl⟩
  | cons e rest ih =>
      have h1 := handle_events_frame app e
      have h2 := ih (app.handle_events e)
      simp only [App.processEvents]
      exact ⟨h2.1.trans h1.1, h2.2.trans h1.2⟩

/-- Closed form of the inner-width computation: defined exactly when the
input box is at least 5 columns wide, where it equals width − 5. -/
theorem innerWidth_eq (w : Nat) :
    innerWidth w = if 5 ≤ w then some (w - 5) else none := by
  rcases Nat.le_total w 3 with h | h
  · rw [if_neg (show ¬ 5 ≤ w by omega)]
    simp [innerWidth, checkedSub, Nat.max_eq_right h]
  · have hmax : max w 3 = w := Nat.max_eq_left h
    simp only [innerWidth, checkedSub, hmax, if_pos h]
    show (if 2 ≤ w - 3 then some (w - 3 - 2) else none) =
      if 5 ≤ w then some (w - 5) else none
    rcases Nat.lt_or_ge w 5 with h5 | h5
    · rw [if_neg (show ¬ 2 ≤ w - 3 by omega), if_neg (by omega)]
    · rw [if_pos (show 2 ≤ w - 3 by omega), if_pos h5]
      exact congrArg some (by omega)

/-- The `max`/subtraction idiom of `set_cursor`
(`cursor.max(scroll) - scroll`) agrees with plain truncated
subtraction. -/
theorem max_sub_right (a b : Nat) : max a b - b = a - b := by
  rcases Nat.le_total a b with h | h
  · rw [Nat.max_eq_right h]
    omega
  · rw [Nat.max_eq_left h]

/-- C1: for a key press in Normal mode, `q` and `Esc` set exit=true and
change nothing else; `s` switches the mode to Editing and changes nothing
else; every other key leaves the whole state unchanged; and no key other
than `q` and `Esc` makes exit true. -/
theorem C1_normal_mode_keys (app : App) (ke : KeyEvent)
    (hmode : app.input_mode = InputMode.normal) :
    ((ke.code = KeyCode.char 'q' ∨ ke.code = KeyCode.esc) →
      app.handle_key_event ke = { app with exit := true }) ∧
    (ke.code = KeyCode.char 's' →
      app.handle_key_event ke = { app with input_mode := InputMode.editing }) ∧
    (ke.code ≠ KeyCode.char 'q' → ke.code ≠ KeyCode.char 's' →
      ke.code ≠ KeyCode.esc → app.handle_key_event ke = app) ∧
    ((app.handle_key_event ke).exit = true →
      app.exit = true ∨ ke.code = KeyCode.char 'q' ∨ ke.code = KeyCode.esc) := by
  rcases ke with ⟨code, kind⟩
  cases code <;> simp [App.handle_key_event, hmode]
  case char c =>
    by_cases hq : c = 'q' <;> by_cases hs : c = 's' <;> simp [hq, hs]

/-- C1 witness: pressing `q` in the initial state sets exit and nothing
else. -/
theorem C1_witness :
    App.default.handle_key_event
        { code := KeyCode.char 'q', kind := KeyEventKind.press } =
      { App.default with exit := true } :=
  (C1_normal_mode_keys App.default
    { code := KeyCode.char 'q', kind := KeyEventKind.press } rfl).1 (Or.inl rfl)

/-- C2: for a key press in Editing mode, `Enter` and `Esc` both switch
the mode to Normal and leave every other field unchanged; in particular
the input buffer (characters and cursor) is untouched. -/
theorem C2_editing_enter_esc (app : App) (ke : KeyEvent)
    (hmode : app.input_mode = InputMode.editing)
    (hcode : ke.code = KeyCode.enter ∨ ke.code = KeyCode.esc) :
    app.handle_key_event ke = { app with input_mode := InputMode.normal } ∧
    (app.handle_key_event ke).input = app.input := by
  rcases ke with ⟨code, kind⟩
  rcases hcode with h | h <;> subst h <;>
    simp [App.handle_key_event, hmode]

/-- C2 witness: `Enter` in Editing mode with buffer `hi` returns to
Normal with the buffer intact. -/
theorem C2_witness :
    editingHi.handle_key_event
        { code := KeyCode.enter, kind := KeyEventKind.press } =
      { editingHi with input_mode := InputMode.normal } :=
  (C2_editing_enter_esc editingHi
    { code := KeyCode.enter, kind := KeyEventKind.press } rfl (Or.inl rfl)).1

/-- C3: of all events read, exactly the key events of kind press are
dispatched to the state machine; key-release and key-repeat events and
every non-key event leave the application state unchanged. -/
theorem C3_only_press_dispatched (app : App) (ev : Event) :
    (∀ ke, ev = Event.key ke → ke.kind = KeyEventKind.press →
      app.handle_events ev = app.handle_key_event ke) ∧
    (∀ ke, ev = Event.key ke → ke.kind ≠ KeyEventKind.press →
      app.handle_events ev = app) ∧
    ((∀ ke, ev ≠ Event.key ke) → app.handle_events ev = app) := by
  cases ev <;> simp [App.handle_events]
  case key ke =>
    constructor
    · intro h
      simp [h]
    · intro h
      simp [h]

/-- C3 witness: a key-release `Esc` event (which would exit were it
dispatched) leaves the initial state unchanged. -/
theorem C3_witness :
    App.default.handle_events
        (Event.key { code := KeyCode.esc, kind := KeyEventKind.release }) =
      App.default :=
  (C3_only_press_dispatched App.default
      (Event.key { code := KeyCode.esc, kind := KeyEventKind.release })).2.1
    { code := KeyCode.esc, kind := KeyEventKind.release } rfl (by decide)

/-- C4: every rendered state in a run has exit=false; a state with
exit=true renders nothing further; and the iteration whose event handler
sets exit is the last one: it renders the pre-event state once and the
loop ends with no later frame. -/
theorem C4_no_render_after_exit (app : App) (evs : List Event) :
    ((app.runTrace evs).1.all fun s => !s.exit) = true ∧
    (app.exit = true → app.runTrace evs = ([], app)) ∧
    (app.exit = false → ∀ e rest, (app.handle_events e).exit = true →
      app.runTrace (e :: rest) = ([app], app.handle_events e)) := by
  have main : ∀ (es : List Event) (a : App),
      ((a.runTrace es).1.all fun s => !s.exit) = true ∧
      (a.exit = true → a.runTrace es = ([], a)) := by
    intro es
    induction es with
    | nil =>
        intro a
        refine ⟨?_, fun h => by simp [App.runTrace, h]⟩
        by_cases h : a.exit <;> simp [App.runTrace, h]
    | cons e rest ih =>
        intro a
        refine ⟨?_, fun h => by simp [App.runTrace, h]⟩
        by_cases h : a.exit
        · simp [App.runTrace, h]
        · simp only [App.runTrace, h, Bool.false_eq_true, if_false]
          simp only [List.all_cons, h, Bool.not_false, Bool.true_and]
          exact (ih (a.handle_events e)).1
  refine ⟨(main evs app).1, (main evs app).2, ?_⟩
  intro h e rest hstep
  have htail := (main rest (app.handle_events e)).2 hstep
  simp [App.runTrace, h, htail]

/-- C4 witness: a state whose exit flag is already set runs to completion
with an empty render trace. -/
theorem C4_witness :
    ({ App.default with exit := true } : App).runTrace [] =
      ([], { App.default with exit := true }) :=
  (C4_no_render_after_exit { App.default with exit := true } []).2.1 rfl

/-- C5 counterexample: in the spec scenario (type the 20 characters
`abcdefghijklmnopqrst`, inner width 10) the scroll is 11, so the visible
substring is `value[11..]` clipped to 10, which is NOT the
`klmnopqrst` the claim asserts. -/
theorem C5_counterexample :
    typedApp.input.cursor = 20 ∧
    typedApp.input.value = "abcdefghijklmnopqrst".toList ∧
    visualScroll 20 10 = 11 ∧
    visibleValue typedApp.input.value (visualScroll 20 10) 10 ≠
      "klmnopqrst".toList := by
  refine ⟨by decide, by decide, rfl, by decide⟩

/-- C5 amended: for every cursor and inner width w ≥ 1 the scroll
satisfies scroll ≤ cursor, cursor − scroll < w and
scroll = max(0, cursor − w + 1); and in the 20-character scenario with
inner width 10 the renderer uses scroll = 11, puts the cursor at column
box.x + 2 + 9, and the visible substring is `lmnopqrst`. -/
theorem C5_scroll_amended :
    (∀ cursor w, 1 ≤ w →
      visualScroll cursor w ≤ cursor ∧
      cursor - visualScroll cursor w < w ∧
      visualScroll cursor w = cursor + 1 - w) ∧
    ((App.render_frame typedApp frame15).map
        (fun o => (o.inputScroll, o.cursorPos)) =
      some (11, some (0 + 2 + 9, 2))) ∧
    visibleValue typedApp.input.value 11 10 = "lmnopqrst".toList := by
  refine ⟨?_, by decide, by decide⟩
  intro cursor w hw
  unfold visualScroll
  omega

/-- C5 witness: the scroll bounds instantiated at cursor 20 and inner
width 10. -/
theorem C5_witness :
    visualScroll 20 10 ≤ 20 ∧ 20 - visualScroll 20 10 < 10 ∧
      visualScroll 20 10 = 20 + 1 - 10 :=
  C5_scroll_amended.1 20 10 (by decide)

/-- C6: on any frame whose u16 coordinates are in range and tall enough
to contain the input box, rendering in Normal mode sets no cursor, and
rendering in Editing mode sets the cursor at
(input_box.x + (cursor − scroll) + 2, input_box.y + 1). -/
theorem C6_cursor_visibility (app : App) (frame : Rect) (out : RenderOutput)
    (hx : frame.x + frame.width ≤ 65536)
    (hy : frame.y + frame.height ≤ 65536)
    (hh : 3 ≤ frame.height)
    (hrender : app.render_frame frame = some out) :
    (app.input_mode = InputMode.normal → out.cursorPos = none) ∧
    (app.input_mode = InputMode.editing →
      out.cursorPos = some
        ((layoutVertical frame).input_box.x +
            (app.input.cursor - out.inputScroll) + 2,
          (layoutVertical frame).input_box.y + 1)) := by
  have hwidth : (layoutVertical frame).input_box.width = frame.width := rfl
  have hbx : (layoutVertical frame).input_box.x = frame.x := rfl
  have hby : (layoutVertical frame).input_box.y =
      frame.y + min 1 frame.height := rfl
  simp only [App.render_frame, hwidth] at hrender
  rcases Option.map_eq_some'.mp hrender with ⟨w, hw, hout⟩
  have hw5 : 5 ≤ frame.width ∧ w = frame.width - 5 := by
    rw [innerWidth_eq] at hw
    by_cases h5 : 5 ≤ frame.width
    · rw [if_pos h5] at hw
      exact ⟨h5, (Option.some.injEq _ _ ▸ hw).symm⟩
    · rw [if_neg h5] at hw
      exact absurd hw (by simp)
  subst hout
  constructor
  · intro hmode
    simp only [hmode]
  · intro hmode
    simp only [hmode]
    have hmin : min 1 frame.height = 1 := Nat.min_eq_left (by omega)
    have hd : max app.input.cursor (visualScroll app.input.cursor w) -
        visualScroll app.input.cursor w =
        app.input.cursor - visualScroll app.input.cursor w :=
      max_sub_right _ _
    have hdw : app.input.cursor - visualScroll app.input.cursor w ≤ w := by
      unfold visualScroll
      omega
    have hdlt : app.input.cursor - visualScroll app.input.cursor w < 65536 := by
      omega
    have hxlt : (layoutVertical frame).input_box.x +
        (app.input.cursor - visualScroll app.input.cursor w) + 1 + 1 <
        65536 := by
      rw [hbx]
      omega
    have hylt : (layoutVertical frame).input_box.y + 1 < 65536 := by
      rw [hby, hmin]
      omega
    rw [hd, Nat.mod_eq_of_lt hdlt, Nat.mod_eq_of_lt hxlt,
      Nat.mod_eq_of_lt hylt]

/-- C6 witness: in the Editing-mode scenario state the rendered cursor
sits at input_box.x + (cursor − scroll) + 2 in the input row. -/
theorem C6_witness :
    out15.cursorPos = some
      ((layoutVertical frame15).input_box.x +
          (typedApp.input.cursor - out15.inputScroll) + 2,
        (layoutVertical frame15).input_box.y + 1) :=
  (C6_cursor_visibility typedApp frame15 out15 (by decide) (by decide)
      (by decide) (by decide)).2 (by decide)

/-- C7 counterexample: the rendered title text has a leading space but no
trailing space, so it differs from the text the claim asserts. -/
theorem C7_counterexample :
    (App.render_frame App.default
        { x := 0, y := 0, width := 80, height := 24 }).map
          (fun o => o.titleBlock.text) =
      some " ytui - youtube search in the terminal" ∧
    (" ytui - youtube search in the terminal" : String) ≠
      " ytui - youtube search in the terminal " := by
  exact ⟨rfl, by decide⟩

/-- C7 amended: whenever a frame renders, the title region holds exactly
the centered, borderless text ` ytui - youtube search in the terminal`
(leading space, no trailing space). -/
theorem C7_title_amended (app : App) (frame : Rect) :
    (app.render_frame frame).map (fun o => o.titleBlock) =
      (innerWidth frame.width).map (fun _ =>
        { text := " ytui - youtube search in the terminal",
          centered := true, hasBorders := false }) := by
  have hwidth : (layoutVertical frame).input_box.width = frame.width := rfl
  simp only [App.render_frame, hwidth]
  cases innerWidth frame.width <;> rfl

/-- C8: `tui::restore()` runs when `App::run` returns normally or with an
I/O error, but a panic that unwinds out of the run loop skips it — the
entry point does not wrap the loop, contradicting the claim and the spec
requirement that restore runs on every exit path. -/
theorem C8_restore_skipped_on_panic :
    TermEffect.restoreTerm ∈ mainEffects RunOutcome.ok ∧
    TermEffect.restoreTerm ∈ mainEffects RunOutcome.ioErr ∧
    TermEffect.restoreTerm ∉ mainEffects RunOutcome.panicked := by
  refine ⟨by decide, by decide, by decide⟩

/-- C9: from the initial state, no sequence of key events ever changes
the result list (it stays empty) or the selected item, and pressing `s`
then `Enter` returns the mode to Normal. -/
theorem C9_results_never_mutated (evs : List Event) :
    (App.default.processEvents evs).search_items = [] ∧
    (App.default.processEvents evs).selected_item = "" ∧
    (App.default.processEvents
        [pressChar 's', pressKey KeyCode.enter]).input_mode =
      InputMode.normal := by
  have h := processEvents_frame App.default evs
  exact ⟨h.1, h.2, by decide⟩

/-- C10: the inner-width expression `input_box.width.max(3) - 3 - 2`
underflows for every box width of at most 4 columns (its left operand is
then 0 or 1), and yields a valid width (width − 5) exactly when the box
is at least 5 columns wide. -/
theorem C10_inner_width_underflow (w : Nat) :
    (w ≤ 4 → max w 3 - 3 ≤ 1 ∧ innerWidth w = none) ∧
    (5 ≤ w → innerWidth w = some (w - 5)) := by
  rw [innerWidth_eq]
  constructor
  · intro h4
    rw [if_neg (show ¬ 5 ≤ w by omega)]
    refine ⟨?_, rfl⟩
    rcases Nat.le_total w 3 with h | h
    · rw [Nat.max_eq_right h]
      omega
    · rw [Nat.max_eq_left h]
      omega
  · intro h5
    rw [if_pos h5]

/-- C10 witness: at box width 4 the left operand of the final subtraction
is at most 1 and the computation underflows. -/
theorem C10_witness : max 4 3 - 3 ≤ 1 ∧ innerWidth 4 = none :=
  (C10_inner_width_underflow 4).1 (by decide)
